import Mathlib

/-!
Shallow embedding of the pr-code-reviewer repository (a Node.js service that
analyzes a project's file layout and posts findings as a single bot comment
on a pull request), together with theorems checking the natural-language
specification against this embedding.

Sources embedded here:
* `src/github-webhook-handler.js` (webhook gate, HMAC-SHA256 signature
  verification via `crypto.createHmac('sha256', secret)`, PR event filter,
  comment upsert `commentOnPR`);
* `src/code-reviewer.js` (`loadRules`, `detectProjectType`, `analyzeProject`,
  `generateReport`);
* `src/analyzers/gitignore-analyzer.js`, `env-analyzer.js`,
  `dependency-analyzer.js`.

Raw request bodies, secrets and signature headers are modelled as byte lists
(`List Nat`), matching Node's `Buffer` semantics; machine words in SHA-256
are `Nat` reduced modulo `2 ^ 32`.
-/

namespace PRReviewer

/-! ## HMAC-SHA256 (embedding of Node `crypto.createHmac('sha256', ...)`) -/

/-- Truncate a natural number to a 32-bit word, the wrap-around used by
SHA-256 word arithmetic. -/
def w32 (n : Nat) : Nat := n % 4294967296

/-- Right rotation of a 32-bit word by `n` places. -/
def rotr (n x : Nat) : Nat := w32 ((x >>> n) ||| (x <<< (32 - n)))

/-- SHA-256 big sigma-0 word function. -/
def bigS0 (x : Nat) : Nat := (rotr 2 x) ^^^ (rotr 13 x) ^^^ (rotr 22 x)

/-- SHA-256 big sigma-1 word function. -/
def bigS1 (x : Nat) : Nat := (rotr 6 x) ^^^ (rotr 11 x) ^^^ (rotr 25 x)

/-- SHA-256 small sigma-0 word function (message schedule). -/
def smallS0 (x : Nat) : Nat := (rotr 7 x) ^^^ (rotr 18 x) ^^^ (x >>> 3)

/-- SHA-256 small sigma-1 word function (message schedule). -/
def smallS1 (x : Nat) : Nat := (rotr 17 x) ^^^ (rotr 19 x) ^^^ (x >>> 10)

/-- SHA-256 choice function `ch(x,y,z)`. -/
def chW (x y z : Nat) : Nat := (x &&& y) ^^^ ((x ^^^ 4294967295) &&& z)

/-- SHA-256 majority function `maj(x,y,z)`. -/
def majW (x y z : Nat) : Nat := (x &&& y) ^^^ (x &&& z) ^^^ (y &&& z)

/-- The 64 SHA-256 round constants (FIPS 180-4, written in decimal). -/
def shaK : List Nat :=
  [1116352408, 1899447441, 3049323471, 3921009573, 961987163, 1508970993,
   2453635748, 2870763221, 3624381080, 310598401, 607225278, 1426881987,
   1925078388, 2162078206, 2614888103, 3248222580, 3835390401, 4022224774,
   264347078, 604807628, 770255983, 1249150122, 1555081692, 1996064986,
   2554220882, 2821834349, 2952996808, 3210313671, 3336571891, 3584528711,
   113926993, 338241895, 666307205, 773529912, 1294757372, 1396182291,
   1695183700, 1986661051, 2177026350, 2456956037, 2730485921, 2820302411,
   3259730800, 3345764771, 3516065817, 3600352804, 4094571909, 275423344,
   430227734, 506948616, 659060556, 883997877, 958139571, 1322822218,
   1537002063, 1747873779, 1955562222, 2024104815, 2227730452, 2361852424,
   2428436474, 2756734187, 3204031479, 3329325298]

/-- The eight SHA-256 chaining words. -/
structure ShaState where
  s0 : Nat
  s1 : Nat
  s2 : Nat
  s3 : Nat
  s4 : Nat
  s5 : Nat
  s6 : Nat
  s7 : Nat
  deriving Repr, DecidableEq

/-- SHA-256 initial chaining value (FIPS 180-4, written in decimal). -/
def shaInit : ShaState :=
  ⟨1779033703, 3144134277, 1013904242, 2773480762,
   1359893119, 2600822924, 528734635, 1541459225⟩

/-- One SHA-256 round: fold the working state through one schedule word and
its round constant. -/
def roundStep (st : ShaState) (wk : Nat × Nat) : ShaState :=
  let t1 := w32 (st.s7 + bigS1 st.s4 + chW st.s4 st.s5 st.s6 + wk.2 + wk.1)
  let t2 := w32 (bigS0 st.s0 + majW st.s0 st.s1 st.s2)
  ⟨w32 (t1 + t2), st.s0, st.s1, st.s2, w32 (st.s3 + t1), st.s4, st.s5, st.s6⟩

/-- Group a byte list into big-endian 32-bit words, four bytes per word. -/
def bytesToWords : List Nat → List Nat
  | b0 :: b1 :: b2 :: b3 :: rest =>
      (b0 * 16777216 + b1 * 65536 + b2 * 256 + b3) :: bytesToWords rest
  | _ => []

/-- Extend the (reversed) message schedule by `n` further words; the head of
the accumulator is the most recent word. -/
def extendW : Nat → List Nat → List Nat
  | 0, acc => acc
  | n + 1, acc =>
      extendW n
        (w32 (smallS1 (acc.getD 1 0) + acc.getD 6 0 +
              smallS0 (acc.getD 14 0) + acc.getD 15 0) :: acc)

/-- The full 64-word SHA-256 message schedule of one 64-byte chunk. -/
def schedule (chunk : List Nat) : List Nat :=
  ((extendW 48 (bytesToWords chunk).reverse)).reverse

/-- SHA-256 compression of one 64-byte chunk into the chaining state. -/
def compress (st : ShaState) (chunk : List Nat) : ShaState :=
  let r := ((schedule chunk).zip shaK).foldl roundStep st
  ⟨w32 (st.s0 + r.s0), w32 (st.s1 + r.s1), w32 (st.s2 + r.s2),
   w32 (st.s3 + r.s3), w32 (st.s4 + r.s4), w32 (st.s5 + r.s5),
   w32 (st.s6 + r.s6), w32 (st.s7 + r.s7)⟩

/-- Big-endian byte rendering of `v` on `n` bytes. -/
def beBytes (n v : Nat) : List Nat :=
  (List.range n).reverse.map (fun i => (v >>> (8 * i)) % 256)

/-- SHA-256 padding: a `0x80` byte, zero bytes up to 56 mod 64, then the
bit length on eight big-endian bytes. -/
def padMessage (msg : List Nat) : List Nat :=
  msg ++ [128] ++ List.replicate ((64 - ((msg.length + 9) % 64)) % 64) 0 ++
    beBytes 8 (8 * msg.length)

/-- Compress `fuel` consecutive 64-byte chunks of `bytes` into the state. -/
def chunksGo : Nat → List Nat → ShaState → ShaState
  | 0, _, st => st
  | fuel + 1, bytes, st =>
      chunksGo fuel (bytes.drop 64) (compress st (bytes.take 64))

/-- Serialize the chaining state as the 32-byte SHA-256 digest. -/
def digestBytes (st : ShaState) : List Nat :=
  beBytes 4 st.s0 ++ beBytes 4 st.s1 ++ beBytes 4 st.s2 ++ beBytes 4 st.s3 ++
  beBytes 4 st.s4 ++ beBytes 4 st.s5 ++ beBytes 4 st.s6 ++ beBytes 4 st.s7

/-- SHA-256 of a byte list. -/
def sha256Bytes (msg : List Nat) : List Nat :=
  let padded := padMessage msg
  digestBytes (chunksGo (padded.length / 64) padded shaInit)

/-- HMAC-SHA256 over bytes: hash an over-long key, zero-pad to the 64-byte
block, then the nested inner/outer hash with the `0x36`/`0x5c` pads. -/
def hmacSha256 (key msg : List Nat) : List Nat :=
  let k0 := if key.length > 64 then sha256Bytes key else key
  let kp := k0 ++ List.replicate (64 - k0.length) 0
  sha256Bytes ((kp.map (fun b => b ^^^ 92)) ++
    sha256Bytes ((kp.map (fun b => b ^^^ 54)) ++ msg))

/-- Lowercase hexadecimal digit of `d < 16`, as an ASCII byte. -/
def hexDigit (d : Nat) : Nat := if d < 10 then 48 + d else 87 + d

/-- Lowercase hexadecimal rendering of a byte list, as ASCII bytes; this is
Node's `.digest('hex')`. -/
def hexOfBytes : List Nat → List Nat
  | [] => []
  | b :: bs => hexDigit (b / 16) :: hexDigit (b % 16) :: hexOfBytes bs

/-- ASCII bytes of a pure-ASCII string literal. -/
def asciiBytes (s : String) : List Nat := s.data.map Char.toNat

/-! ## Webhook gate (embedding of `GitHubWebhookHandler`) -/

/-- Node `crypto.timingSafeEqual`: throws on buffers of different length,
otherwise returns whether the byte contents are equal. (Its timing behavior
is an extra-functional property with no counterpart in this embedding; only
its value semantics are modelled.) -/
def timingSafeEqual (a b : List Nat) : Except String Bool :=
  if a.length = b.length then .ok (a == b)
  else .error "Input buffers must have the same byte length"

/-- The expected signature header value computed inside
`verifyWebhookSignature`: the ASCII bytes of
`"sha256=" + hmac_sha256_hex(secret, payload)`. -/
def expectedSigBytes (secret payload : List Nat) : List Nat :=
  asciiBytes "sha256=" ++ hexOfBytes (hmacSha256 secret payload)

/-- `GitHubWebhookHandler.verifyWebhookSignature(payload, signature)`:
compare the received header bytes with the expected
`sha256=<hmac-sha256-hex>` value via `crypto.timingSafeEqual`. An unequal
buffer length makes `timingSafeEqual` throw, which this function propagates. -/
def verifyWebhookSignature (secret payload signature : List Nat) :
    Except String Bool :=
  timingSafeEqual signature (expectedSigBytes secret payload)

/-- The default webhook secret baked into the constructor:
`process.env.WEBHOOK_SECRET || 'your-webhook-secret-here'`. -/
def defaultSecretBytes : List Nat := asciiBytes "your-webhook-secret-here"

/-- The constructor's secret computation: an absent or empty (falsy)
`WEBHOOK_SECRET` environment variable degrades to the hardcoded default. -/
def configuredSecret (envSecret : Option (List Nat)) : List Nat :=
  match envSecret with
  | some s => if s = [] then defaultSecretBytes else s
  | none => defaultSecretBytes

/-- The parsed payload fields the pull-request path reads:
`{action, pull_request.number, repository.{owner.login, name, full_name}}`. -/
structure Payload where
  action : String
  prNumber : Nat
  ownerLogin : String
  repoName : String
  fullName : String
  deriving Repr, DecidableEq

/-- Observable side effects of handling one delivery: a PR analysis run, or
a PR comment write. -/
inductive Effect where
  | analyzed (owner repo : String) (pr : Nat)
  | commented (owner repo : String) (pr : Nat) (body : String)
  deriving Repr, DecidableEq

/-- The "Code Review Failed" comment body posted when `analyzePR` throws. -/
def errorReportText (msg : String) : String :=
  "🤖 **Code Review Failed**\n\n❌ **Error during analysis:** " ++ msg ++
  "\n\nPlease check the server logs or contact support.\n\n---\n🔧 *Automated review by PR Code Reviewer*"

/-- The action values `handlePullRequestEvent` reacts to. -/
def relevantActions : List String := ["opened", "synchronize", "reopened"]

/-- `GitHubWebhookHandler.handlePullRequestEvent(payload)`: skip irrelevant
actions with no side effect; otherwise run the analysis pipeline
(abstracted as `analyzePR`, yielding the effects it performed), and on its
failure post the error comment (abstracted `commentFn`, whose own failure
propagates). -/
def handlePullRequestEvent (payload : Payload)
    (analyzePR : String → String → Nat → Except String (List Effect))
    (commentFn : String → String → Nat → String → Except String Unit) :
    Except String (List Effect) :=
  if relevantActions.contains payload.action then
    match analyzePR payload.ownerLogin payload.repoName payload.prNumber with
    | .ok effs => .ok effs
    | .error e =>
        match commentFn payload.ownerLogin payload.repoName payload.prNumber
            (errorReportText e) with
        | .ok _ => .ok [Effect.commented payload.ownerLogin payload.repoName
            payload.prNumber (errorReportText e)]
        | .error e2 => .error e2
  else .ok []

/-- The body of `handleWebhook` after the signature gate: parse the raw body
(`JSON.parse` throwing on `none`), dispatch `pull_request` events, and
acknowledge everything else with a 200 and no effects. -/
def processWebhookBody (rawBody : List Nat) (event : String)
    (parse : List Nat → Option Payload)
    (analyzePR : String → String → Nat → Except String (List Effect))
    (commentFn : String → String → Nat → String → Except String Unit) :
    Except String (Nat × List Effect) :=
  match parse rawBody with
  | none => .error "Unexpected token in JSON"
  | some payload =>
      if event = "pull_request" then
        match handlePullRequestEvent payload analyzePR commentFn with
        | .ok effs => .ok (200, effs)
        | .error e => .error e
      else .ok (200, [])

/-- `GitHubWebhookHandler.handleWebhook(req, res)`: the gate is the
JavaScript truthiness test `if (this.webhookSecret && signature)` — it
verifies the HMAC only when the secret is a nonempty string AND the
signature header is present and nonempty (an absent header is `undefined`
and an empty header is `''`, both falsy, so verification is skipped and the
event is processed). Under the gate, a comparison mismatch answers 401 with
no processing, and a `timingSafeEqual` exception falls into the outer
catch. Any exception anywhere answers 500. The result is the HTTP status
paired with the side effects performed. -/
def handleWebhook (secret : List Nat) (sigHeader : Option (List Nat))
    (rawBody : List Nat) (event : String)
    (parse : List Nat → Option Payload)
    (analyzePR : String → String → Nat → Except String (List Effect))
    (commentFn : String → String → Nat → String → Except String Unit) :
    Nat × List Effect :=
  let core : Except String (Nat × List Effect) :=
    match sigHeader with
    | some sig =>
        if secret ≠ [] ∧ sig ≠ [] then
          match verifyWebhookSignature secret rawBody sig with
          | .error e => .error e
          | .ok false => .ok (401, [])
          | .ok true => processWebhookBody rawBody event parse analyzePR commentFn
        else processWebhookBody rawBody event parse analyzePR commentFn
    | none => processWebhookBody rawBody event parse analyzePR commentFn
  match core with
  | .ok r => r
  | .error _ => (500, [])

/-! ## PR comment upsert (embedding of `GitHubWebhookHandler.commentOnPR`) -/

/-- Does `hay` begin with `needle`? (Byte-for-byte prefix test on char
lists.) -/
def leadsWith : List Char → List Char → Bool
  | [], _ => true
  | _ :: _, [] => false
  | a :: as, b :: bs => a == b && leadsWith as bs

/-- JavaScript `hay.includes(needle)`: does `needle` occur contiguously
anywhere in `hay`? -/
def containsSub (hay needle : List Char) : Bool :=
  leadsWith needle hay ||
    match hay with
    | [] => false
    | _ :: t => containsSub t needle

/-- The fixed marker identifying the bot's comment. -/
def botMarker : String := "🤖 **Code Structure Review**"

/-- One GitHub issue comment, as the upsert step observes it. -/
structure Comment where
  id : Nat
  body : String
  deriving Repr, DecidableEq

/-- The predicate `commentOnPR` selects with:
`comment.body.includes('🤖 **Code Structure Review**')`. -/
def isBotComment (c : Comment) : Bool := containsSub c.body.data botMarker.data

/-- `GitHubWebhookHandler.commentOnPR` as a transition on the PR's comment
list: list the comments, find the first whose body contains the bot marker,
update that comment's body in place if found, otherwise create a new comment
(with the host-assigned fresh id `freshId`). -/
def commentOnPR (comments : List Comment) (freshId : Nat) (message : String) :
    List Comment :=
  match comments.find? isBotComment with
  | some bot => comments.map (fun c => if c.id = bot.id then ⟨c.id, message⟩ else c)
  | none => comments ++ [⟨freshId, message⟩]

/-- Modelled from the spec: the search step as §4.7 words it — a comment
"whose body starts with the fixed bot marker string" — used to compare the
spec's predicate with the `includes`-based one the source implements. -/
def commentOnPRStartsWith (comments : List Comment) (freshId : Nat)
    (message : String) : List Comment :=
  match comments.find? (fun c => leadsWith botMarker.data c.body.data) with
  | some bot => comments.map (fun c => if c.id = bot.id then ⟨c.id, message⟩ else c)
  | none => comments ++ [⟨freshId, message⟩]

/-- Number of bot comments (bodies containing the marker) on the PR. -/
def botCount (comments : List Comment) : Nat := comments.countP (isBotComment ·)

/-! ## Rule loading and merging (embedding of `CodeReviewer.loadRules`) -/

/-- One namespace record of a rule file:
`{requiredFiles, prohibitedFiles, prohibitedFolders, gitignoreRules}`, each
field optional as in the loosely-typed JSON. -/
structure RuleNS where
  requiredFiles : Option (List String) := none
  prohibitedFiles : Option (List String) := none
  prohibitedFolders : Option (List String) := none
  gitignoreRules : Option (List String) := none
  deriving Repr, DecidableEq

/-- A parsed rule file: a JavaScript object mapping namespace names to
namespace records, in property order. -/
abbrev RuleObj : Type := List (String × RuleNS)

/-- JavaScript property lookup on an object: the first entry with the key. -/
def assocLookup (o : RuleObj) (k : String) : Option RuleNS :=
  (o.find? (fun kv => kv.1 = k)).map (fun kv => kv.2)

/-- JavaScript object spread `{...a, ...b}`: `a`'s properties in order with
any value overridden by `b`, followed by `b`'s properties absent from `a`. -/
def spread2 (a b : RuleObj) : RuleObj :=
  a.map (fun kv => (kv.1, (assocLookup b kv.1).getD kv.2)) ++
    b.filter (fun kv => (assocLookup a kv.1).isNone)

/-- How one rule file presents itself to `loadRules`: absent on disk, parsed
content, or a read/parse exception. -/
inductive RuleFile where
  | absent
  | content (o : RuleObj)
  | malformed
  deriving Repr

/-- The `{ general: {} }` default returned by `loadRules`' catch branch. -/
def defaultRules : RuleObj := [("general", {})]

/-- `CodeReviewer.loadRules(projectType)`: start from `{}`, spread in the
general rule file when present, then the category rule file when present; a
read or parse exception anywhere degrades to the `{ general: {} }` default. -/
def loadRules (generalFile categoryFile : RuleFile) : RuleObj :=
  let step : Except Unit RuleObj :=
    match generalFile with
    | .malformed => .error ()
    | .absent => .ok []
    | .content g =>
        .ok (spread2 [] g)
  let step2 : Except Unit RuleObj :=
    match step with
    | .error e => .error e
    | .ok r =>
        match categoryFile with
        | .malformed => .error ()
        | .absent => .ok r
        | .content p => .ok (spread2 r p)
  match step2 with
  | .ok r => r
  | .error _ => defaultRules

/-! ## Project type detection (embedding of `CodeReviewer.detectProjectType`) -/

/-- `CodeReviewer.detectProjectType(projectPath)` over the outcome of
`fs.readdirSync`: Node.js on a `package.json`, then Python on any of the
three Python markers, else the generic category; a directory-read exception
is caught and also yields the generic category. -/
def detectProjectType (listing : Except String (List String)) : String :=
  match listing with
  | .error _ => "general"
  | .ok files =>
      if files.contains "package.json" then "nodejs"
      else if files.contains "requirements.txt" || files.contains "setup.py" ||
          files.contains "pyproject.toml" then "python"
      else "general"

/-! ## Analyzer dispatch (embedding of `CodeReviewer.analyzeProject`) -/

/-- One finding: a rule name, a message, and an optional suggestion. -/
structure Finding where
  rule : String
  message : String
  suggestion : Option String := none
  deriving Repr, DecidableEq

/-- What an analyzer's `analyze` returns on normal completion. -/
structure AnalyzerOutput where
  analyzer : String
  passed : List Finding
  failed : List Finding
  warnings : List Finding
  deriving Repr, DecidableEq

/-- One entry of the aggregate report's `analyzers` array; `error` is set
exactly when the analyzer threw, in which case the finding lists are the
empty lists the catch branch writes. -/
structure AnalysisResult where
  analyzer : String
  passed : List Finding
  failed : List Finding
  warnings : List Finding
  error : Option String := none
  deriving Repr, DecidableEq

/-- The `summary` record of an aggregate report. -/
structure Summary where
  totalAnalyzers : Nat
  passed : Nat
  failed : Nat
  warnings : Nat
  deriving Repr, DecidableEq

/-- The aggregate report `analyzeProject` resolves with. -/
structure Report where
  projectPath : String
  projectType : String
  summary : Summary
  analyzers : List AnalysisResult
  deriving Repr, DecidableEq

/-- One registered analyzer at a fixed project path and rule set: its `name`
property and the outcome of its `analyze` call (`Except.error` models a
thrown exception). -/
instance : DecidableEq (Except String AnalyzerOutput) := fun x y =>
  match x, y with
  | .ok a, .ok b =>
      if h : a = b then isTrue (by rw [h]) else isFalse (by simp [h])
  | .error a, .error b =>
      if h : a = b then isTrue (by rw [h]) else isFalse (by simp [h])
  | .ok _, .error _ => isFalse (by simp)
  | .error _, .ok _ => isFalse (by simp)

structure AnalyzerRun where
  name : String
  run : Except String AnalyzerOutput
  deriving Repr, DecidableEq

/-- The success branch of the loop body: push the analyzer's result and add
its three list lengths to the summary counts. -/
def stepOk (acc : Report) (res : AnalyzerOutput) : Report :=
  { acc with
    analyzers := acc.analyzers ++
      [⟨res.analyzer, res.passed, res.failed, res.warnings, none⟩],
    summary := { acc.summary with
      passed := acc.summary.passed + res.passed.length,
      failed := acc.summary.failed + res.failed.length,
      warnings := acc.summary.warnings + res.warnings.length } }

/-- The catch branch of the loop body: record the analyzer's name, the
exception message, and empty finding lists; the summary is untouched. -/
def stepErr (acc : Report) (name msg : String) : Report :=
  { acc with analyzers := acc.analyzers ++ [⟨name, [], [], [], some msg⟩] }

/-- One iteration of the `for (const analyzer of this.analyzers)` loop. -/
def analyzerStep (acc : Report) (a : AnalyzerRun) : Report :=
  match a.run with
  | .ok res => stepOk acc res
  | .error e => stepErr acc a.name e

/-- `CodeReviewer.analyzeProject(projectPath, projectType)`: throw when the
directory does not exist, otherwise fold the registered analyzers in order
through the wrapped loop body, starting from zeroed summary counts. -/
def analyzeProject (pathOK : Bool) (projectPath projectType : String)
    (analyzers : List AnalyzerRun) : Except String Report :=
  if pathOK then
    .ok (analyzers.foldl analyzerStep
      ⟨projectPath, projectType, ⟨analyzers.length, 0, 0, 0⟩, []⟩)
  else .error ("Project directory does not exist: " ++ projectPath)

/-! ## Report rendering (embedding of `CodeReviewer.generateReport`) -/

/-- Decimal digit character of `d < 10`. -/
def digitChar (d : Nat) : Char := Char.ofNat (48 + d)

/-- Decimal digits of `n`, most significant first, with `fuel` bounding the
recursion depth. -/
def natReprAux : Nat → Nat → List Char
  | 0, _ => []
  | fuel + 1, n =>
      if n < 10 then [digitChar n]
      else natReprAux fuel (n / 10) ++ [digitChar (n % 10)]

/-- Decimal rendering of a count, as JavaScript template interpolation
prints a number. -/
def natRepr (n : Nat) : String := String.mk (natReprAux (n + 1) n)

/-- Split a character list at `/` separators. -/
def splitSlash : List Char → List (List Char)
  | [] => [[]]
  | c :: rest =>
      let r := splitSlash rest
      if c = '/' then [] :: r
      else
        match r with
        | s :: ss => (c :: s) :: ss
        | [] => [[c]]

/-- Node `path.basename`: the last nonempty `/`-separated segment of the
path (empty for a path with no such segment). -/
def basename (p : String) : String :=
  match ((splitSlash p.data).filter (fun s => s ≠ [])).getLast? with
  | some s => String.mk s
  | none => ""

/-- JavaScript `array.join('\n')`. -/
def joinNL : List String → String
  | [] => ""
  | x :: xs => xs.foldl (fun acc s => acc ++ "\n" ++ s) x

/-- JavaScript truthiness of the `error` property of an analyzer entry: a
present, nonempty message. -/
def errTruthy (r : AnalysisResult) : Bool :=
  match r.error with
  | some s => s ≠ ""
  | none => false

/-- The lines `generateReport` pushes into `criticalIssues`: the error line
of each erroring analyzer, else each failed finding's message line followed
by its indented suggestion line when present. -/
def criticalLines (rs : List AnalysisResult) : List String :=
  rs.flatMap (fun a =>
    if errTruthy a then
      ["❌ **" ++ a.analyzer ++ "**: " ++ a.error.getD ""]
    else
      a.failed.flatMap (fun f =>
        ["❌ **" ++ f.message ++ "**"] ++
          match f.suggestion with
          | some s => ["   💡 *" ++ s ++ "*"]
          | none => []))

/-- The lines `generateReport` pushes into `warnings`. -/
def warningLines (rs : List AnalysisResult) : List String :=
  rs.flatMap (fun a =>
    if errTruthy a then []
    else
      a.warnings.flatMap (fun f =>
        ["⚠️  **" ++ f.message ++ "**"] ++
          match f.suggestion with
          | some s => ["   💡 *" ++ s ++ "*"]
          | none => []))

/-- The lines `generateReport` pushes into `successes`. -/
def successLines (rs : List AnalysisResult) : List String :=
  rs.flatMap (fun a =>
    if errTruthy a then []
    else a.passed.map (fun f => "✅ " ++ f.message))

/-- The closing general-recommendations section text. -/
def recsBlock : String :=
  "## 📚 General Recommendations\n- Keep your .gitignore file updated\n- Never commit environment files (.env)\n- Exclude dependency folders (node_modules, .venv)\n- Use .env.example to document required environment variables\n"

/-- `CodeReviewer.generateReport(results)`: header with project name, type
and summary counts; the Issues, Warnings and Good-Practices sections, each
only when its line list is nonempty; and the general-recommendations block
appended exactly when `criticalIssues` or `warnings` is nonempty. -/
def generateReport (r : Report) : String :=
  let header :=
    "🤖 **Code Structure Review**\n\n" ++
    "📁 Project: " ++ basename r.projectPath ++ "\n" ++
    "🔧 Type: " ++ r.projectType ++ "\n" ++
    "📊 Summary: " ++ natRepr r.summary.passed ++ " passed, " ++
      natRepr r.summary.failed ++ " failed, " ++
      natRepr r.summary.warnings ++ " warnings\n\n"
  let ci := criticalLines r.analyzers
  let ws := warningLines r.analyzers
  let ss := successLines r.analyzers
  let rep := header ++
    (if ci ≠ [] then "## ❌ Issues Found\n" ++ joinNL ci ++ "\n\n" else "") ++
    (if ws ≠ [] then "## ⚠️  Warnings\n" ++ joinNL ws ++ "\n\n" else "") ++
    (if ss ≠ [] then "## ✅ Good Practices Found\n" ++ joinNL ss ++ "\n\n" else "")
  if ci ≠ [] ∨ ws ≠ [] then rep ++ recsBlock else rep

/-! ## Gitignore analyzer (embedding of `GitignoreAnalyzer`) -/

/-- JavaScript `s.replace(c, '')` for a single-character pattern: drop the
first occurrence only. -/
def removeFirstChar (c : Char) : List Char → List Char
  | [] => []
  | x :: xs => if x = c then xs else x :: removeFirstChar c xs

/-- `rule.replace('/', '')` on a rule string. -/
def stripSlash (s : String) : String := String.mk (removeFirstChar '/' s.data)

/-- `GitignoreAnalyzer.checkRequiredRules`: one pass or fail finding per
required rule, matched by line equality or slash-stripped containment. -/
def checkRequiredRules (gitignoreLines requiredRules : List String) :
    List Finding × List Finding :=
  requiredRules.foldl
    (fun acc rule =>
      let found := gitignoreLines.any (fun line =>
        line = rule || containsSub line.data (stripSlash rule).data)
      if found then
        (acc.1 ++ [⟨"gitignore-has-" ++ stripSlash rule,
          "✅ .gitignore includes: " ++ rule, none⟩], acc.2)
      else
        (acc.1, acc.2 ++ [⟨"gitignore-missing-" ++ stripSlash rule,
          "❌ .gitignore missing: " ++ rule,
          some ("Add '" ++ rule ++ "' to your .gitignore file")⟩]))
    ([], [])

/-- `GitignoreAnalyzer.checkGeneralRules`: one pass or warning finding per
prohibited folder, matched by containment in some line. -/
def checkGeneralRules (gitignoreLines : List String) (general : RuleNS) :
    List Finding × List Finding :=
  match general.prohibitedFolders with
  | none => ([], [])
  | some folders =>
      folders.foldl
        (fun acc folder =>
          let found := gitignoreLines.any (fun line =>
            containsSub line.data folder.data)
          if found then
            (acc.1 ++ [⟨"gitignore-excludes-" ++ folder,
              "✅ .gitignore excludes: " ++ folder, none⟩], acc.2)
          else
            (acc.1, acc.2 ++ [⟨"gitignore-should-exclude-" ++ folder,
              "⚠️  Consider adding '" ++ folder ++ "/' to .gitignore",
              some ("Add '" ++ folder ++
                "/' to exclude this folder from version control")⟩]))
        ([], [])

/-- The finding pushed when `.gitignore` is missing. -/
def missingGitignoreFinding : Finding :=
  ⟨"gitignore-exists", "❌ Missing .gitignore file",
   some "Create a .gitignore file to exclude unnecessary files from version control"⟩

/-- `GitignoreAnalyzer.analyze(projectPath, rules)`: fail and return early
when `.gitignore` is absent; otherwise record its presence, read it (an
unreadable file becomes a failed finding), trim its lines, and run the
Node.js rule check when `rules.nodejs.gitignoreRules` is present, else the
general folder check when `rules.general` is present. -/
def gitignoreAnalyze (gitignoreOnDisk : Bool)
    (content : Except String String) (rules : RuleObj) : AnalyzerOutput :=
  if ¬gitignoreOnDisk then
    ⟨"Gitignore Analyzer", [], [missingGitignoreFinding], []⟩
  else
    let base : AnalyzerOutput :=
      ⟨"Gitignore Analyzer",
       [⟨"gitignore-exists", "✅ .gitignore file found", none⟩], [], []⟩
    match content with
    | .error _ =>
        { base with failed := base.failed ++
            [⟨"gitignore-readable", "❌ Could not read .gitignore file",
              some "Make sure .gitignore file is readable"⟩] }
    | .ok text =>
        let gitignoreLines := (text.splitOn "\n").map String.trim
        match (assocLookup rules "nodejs").bind (fun ns => ns.gitignoreRules) with
        | some requiredRules =>
            let pf := checkRequiredRules gitignoreLines requiredRules
            { base with passed := base.passed ++ pf.1, failed := base.failed ++ pf.2 }
        | none =>
            match assocLookup rules "general" with
            | some general =>
                let pw := checkGeneralRules gitignoreLines general
                { base with
                  passed := base.passed ++ pw.1
                  warnings := base.warnings ++ pw.2 }
            | none => base

/-! ## Environment files analyzer (embedding of `EnvAnalyzer`) -/

/-- The default prohibited env-file list used when
`rules.general?.prohibitedFiles` is not present. -/
def defaultEnvFiles : List String :=
  [".env", ".env.local", ".env.production", ".env.development"]

/-- `EnvAnalyzer.findEnvFiles(projectPath, prohibitedFiles)`: for each
directory entry, push it when it is in the prohibited list, and push it
again when it starts with `.env` and is not `.env.example`; an unreadable
directory yields the empty list. -/
def findEnvFiles (listing : Except String (List String))
    (prohibitedFiles : List String) : List String :=
  match listing with
  | .error _ => []
  | .ok files =>
      files.flatMap (fun file =>
        (if prohibitedFiles.contains file then [file] else []) ++
        (if leadsWith ".env".data file.data && file ≠ ".env.example"
         then [file] else []))

/-- The failed finding recorded for one found env file. -/
def envFailedFinding (envFile : String) : Finding :=
  ⟨"env-file-committed", "❌ Environment file found: " ++ envFile,
   some ("Remove '" ++ envFile ++
     "' from repository and add it to .gitignore. Use '.env.example' instead to show required variables.")⟩

/-- `EnvAnalyzer.analyze(projectPath, rules)`: search the project root for
prohibited env files — a clean root passes the `no-env-files-committed`
rule, otherwise each found entry becomes a failed finding — then record the
presence of `.env.example` as a pass or its absence as a warning. -/
def envAnalyze (listing : Except String (List String)) (rules : RuleObj)
    (envExampleOnDisk : Bool) : AnalyzerOutput :=
  let prohibitedEnvFiles :=
    ((assocLookup rules "general").bind (fun ns => ns.prohibitedFiles)).getD
      defaultEnvFiles
  let foundEnvFiles := findEnvFiles listing prohibitedEnvFiles
  let passed0 : List Finding :=
    if foundEnvFiles.length = 0 then
      [⟨"no-env-files-committed", "✅ No .env files found in repository", none⟩]
    else []
  let failed0 : List Finding :=
    if foundEnvFiles.length = 0 then []
    else foundEnvFiles.map envFailedFinding
  if envExampleOnDisk then
    ⟨"Environment Files Analyzer",
     passed0 ++ [⟨"env-example-exists", "✅ .env.example file found (good practice)", none⟩],
     failed0, []⟩
  else
    ⟨"Environment Files Analyzer", passed0, failed0,
     [⟨"env-example-recommended", "⚠️  Consider creating .env.example file",
       some "Create .env.example with dummy values to show required environment variables"⟩]⟩

/-! ## Theorems -/

/-- C9: for every project directory that has no `.gitignore` file, the
gitignore analyzer returns a result whose failed list is exactly the one
`gitignore-exists` finding and whose passed and warnings lists are empty;
no gitignore-content checks are performed when the file is absent (the
result is independent of the file content and of the rule set). -/
theorem gitignore_absent_single_failure (content : Except String String)
    (rules : RuleObj) :
    gitignoreAnalyze false content rules =
      ⟨"Gitignore Analyzer", [], [missingGitignoreFinding], []⟩ ∧
    missingGitignoreFinding.rule = "gitignore-exists" := by
  constructor
  · rfl
  · rfl

/-- C10: `detectProjectType` is total at the public interface: whatever the
directory listing — including a read failure, which the catch branch maps to
the generic category — it returns one of exactly `nodejs`, `python` or
`general`. -/
theorem detectProjectType_total (listing : Except String (List String)) :
    detectProjectType listing = "nodejs" ∨
    detectProjectType listing = "python" ∨
    detectProjectType listing = "general" := by
  cases listing with
  | error e => right; right; rfl
  | ok files =>
      simp only [detectProjectType]
      rcases h1 : files.contains "package.json" with _ | _
      · rcases h2 : files.contains "requirements.txt" ||
            files.contains "setup.py" || files.contains "pyproject.toml" with _ | _
        · right; right; simp [h1, h2]
        · right; left; simp [h1, h2]
      · left; simp [h1]

/-- Property lookup on a nonempty object: the head entry wins when its key
matches. -/
theorem assocLookup_cons (kv : String × RuleNS) (t : RuleObj) (k : String) :
    assocLookup (kv :: t) k = if kv.1 = k then some kv.2 else assocLookup t k := by
  by_cases h : kv.1 = k <;> simp [assocLookup, List.find?_cons, h]

/-- Property lookup distributes over object concatenation, first part
winning. -/
theorem assocLookup_append (x y : RuleObj) (k : String) :
    assocLookup (x ++ y) k =
      match assocLookup x k with
      | some v => some v
      | none => assocLookup y k := by
  induction x with
  | nil => simp [assocLookup]
  | cons kv t ih =>
      by_cases h : kv.1 = k
      · simp [assocLookup_cons, h]
      · simp [assocLookup_cons, h, ih]

/-- Looking up a key in the value-overridden copy of `a` that `spread2`
builds gives `b`'s value when `b` has the key, else `a`'s. -/
theorem assocLookup_override (a b : RuleObj) (k : String) :
    assocLookup (a.map (fun kv => (kv.1, (assocLookup b kv.1).getD kv.2))) k =
      (assocLookup a k).map (fun v => (assocLookup b k).getD v) := by
  induction a with
  | nil => simp [assocLookup]
  | cons kv t ih =>
      by_cases h : kv.1 = k
      · subst h; simp [assocLookup_cons]
      · simp [assocLookup_cons, h, ih]

/-- Looking up `k` among `b`'s entries whose key is absent from `a` agrees
with looking `k` up in `b`, provided `a` itself lacks `k`. -/
theorem assocLookup_filterAbsent (a b : RuleObj) (k : String)
    (h : assocLookup a k = none) :
    assocLookup (b.filter (fun kv => (assocLookup a kv.1).isNone)) k =
      assocLookup b k := by
  induction b with
  | nil => rfl
  | cons kv t ih =>
      by_cases hk : kv.1 = k
      · have ha : assocLookup a kv.1 = none := by rw [hk]; exact h
        simp [List.filter_cons, ha, assocLookup_cons, hk, h]
      · rcases hfil : (assocLookup a kv.1).isNone with _ | _ <;>
          simp [List.filter_cons, hfil, assocLookup_cons, hk, ih]

/-- The JavaScript spread semantics of the rule merge, keywise: a key in
`a` takes `b`'s value when `b` also has it (full shallow replacement),
otherwise keeps `a`'s; a key only in `b` takes `b`'s value. -/
theorem assocLookup_spread2 (a b : RuleObj) (k : String) :
    assocLookup (spread2 a b) k =
      match assocLookup a k with
      | some va => some ((assocLookup b k).getD va)
      | none => assocLookup b k := by
  rw [spread2, assocLookup_append, assocLookup_override]
  cases ha : assocLookup a k with
  | some va => simp
  | none => simp [assocLookup_filterAbsent a b k ha]

/-- Spreading into the empty object copies the object. -/
theorem spread2_nil (b : RuleObj) : spread2 [] b = b := by
  simp [spread2, assocLookup]

/-- C4: for any base (general) rule object and any category-specific rule
object, the merged object `loadRules` returns has top-level keys equal to
the union of their keys, and every key present in both maps to exactly the
category object's value — shallow replacement, no deep merge. -/
theorem loadRules_shallow_merge (g p : RuleObj) :
    (∀ k, (assocLookup (loadRules (.content g) (.content p)) k).isSome ↔
        ((assocLookup g k).isSome ∨ (assocLookup p k).isSome)) ∧
    (∀ k, (assocLookup g k).isSome → (assocLookup p k).isSome →
        assocLookup (loadRules (.content g) (.content p)) k =
          assocLookup p k) := by
  have hm : loadRules (.content g) (.content p) = spread2 g p := by
    simp [loadRules, spread2_nil]
  constructor
  · intro k
    rw [hm, assocLookup_spread2]
    cases ha : assocLookup g k with
    | some va => cases hb : assocLookup p k <;> simp
    | none => cases hb : assocLookup p k <;> simp
  · intro k hg hp
    rw [hm, assocLookup_spread2]
    cases ha : assocLookup g k with
    | some va =>
        cases hb : assocLookup p k with
        | some vb => simp
        | none => simp [hb] at hp
    | none => simp [ha] at hg

/-- Witness for C4 at a concrete pair of rule objects sharing the key
`general`: both lookups succeed and the merged value is the category one. -/
theorem loadRules_shallow_merge_witness :
    (assocLookup [("general", ⟨none, some [".env"], none, none⟩),
        ("extra", ⟨none, none, none, none⟩)] "general").isSome ∧
    (assocLookup [("general", ⟨some ["README.md"], none, none, none⟩),
        ("nodejs", ⟨none, none, none, none⟩)] "general").isSome ∧
    assocLookup (loadRules
        (.content [("general", ⟨none, some [".env"], none, none⟩),
          ("extra", ⟨none, none, none, none⟩)])
        (.content [("general", ⟨some ["README.md"], none, none, none⟩),
          ("nodejs", ⟨none, none, none, none⟩)])) "general" =
      assocLookup [("general", ⟨some ["README.md"], none, none, none⟩),
        ("nodejs", ⟨none, none, none, none⟩)] "general" :=
  ⟨by decide, by decide,
    (loadRules_shallow_merge
      [("general", ⟨none, some [".env"], none, none⟩),
        ("extra", ⟨none, none, none, none⟩)]
      [("general", ⟨some ["README.md"], none, none, none⟩),
        ("nodejs", ⟨none, none, none, none⟩)]).2 "general"
      (by decide) (by decide)⟩

/-- The `analyzers`-array entry one registered analyzer contributes: its
output on normal completion, the catch branch's error entry when it threw. -/
def resultOf (a : AnalyzerRun) : AnalysisResult :=
  match a.run with
  | .ok r => ⟨r.analyzer, r.passed, r.failed, r.warnings, none⟩
  | .error e => ⟨a.name, [], [], [], some e⟩

/-- An entry contributed by a throwing analyzer has empty finding lists. -/
theorem resultOf_error_empty (a : AnalyzerRun) :
    (resultOf a).error ≠ none →
      (resultOf a).passed = [] ∧ (resultOf a).failed = [] ∧
      (resultOf a).warnings = [] := by
  cases h : a.run <;> simp [resultOf, h]

/-- Closed form of the analyzer loop: it appends one entry per analyzer in
order and adds the finding-list lengths of the non-throwing ones to the
summary counts. -/
theorem foldl_analyzerStep (l : List AnalyzerRun) (acc : Report) :
    l.foldl analyzerStep acc = ⟨acc.projectPath, acc.projectType,
      ⟨acc.summary.totalAnalyzers,
       acc.summary.passed + (l.map (fun a => (resultOf a).passed.length)).sum,
       acc.summary.failed + (l.map (fun a => (resultOf a).failed.length)).sum,
       acc.summary.warnings + (l.map (fun a => (resultOf a).warnings.length)).sum⟩,
      acc.analyzers ++ l.map resultOf⟩ := by
  induction l generalizing acc with
  | nil => simp
  | cons a t ih =>
      rw [List.foldl_cons, ih]
      cases ha : a.run with
      | ok r =>
          simp [analyzerStep, ha, stepOk, resultOf, Nat.add_assoc]
      | error e =>
          simp [analyzerStep, ha, stepErr, resultOf]

/-- Summing a finding-list length over all entries equals summing it over
the error-free entries, provided erroring entries contribute empty lists. -/
theorem sum_filter_noError (f : AnalysisResult → List Finding)
    (rs : List AnalysisResult)
    (h : ∀ r ∈ rs, r.error ≠ none → f r = []) :
    (rs.map (fun r => (f r).length)).sum =
      ((rs.filter (fun r => r.error = none)).map (fun r => (f r).length)).sum := by
  induction rs with
  | nil => rfl
  | cons r t ih =>
      have ht : ∀ x ∈ t, x.error ≠ none → f x = [] :=
        fun x hx => h x (List.mem_cons_of_mem r hx)
      cases he : r.error with
      | none => simp [List.filter_cons, he, ih ht]
      | some e =>
          have : f r = [] := h r (List.mem_cons_self r t) (by simp [he])
          simp [List.filter_cons, he, this, ih ht]

/-- C3: if registered analyzer `i` throws during `analyzeProject`, the
returned report still has one entry per analyzer (execution continued), the
entry at `i` carries the exception message in `error` with empty finding
lists, and each summary count equals the sum of the corresponding list
lengths over exactly the entries without `error`. -/
theorem analyzeProject_isolates_failure (pp pt : String)
    (analyzers : List AnalyzerRun) (i : Nat) (nm e : String)
    (hi : analyzers.get? i = some ⟨nm, .error e⟩) :
    ∃ rep, analyzeProject true pp pt analyzers = .ok rep ∧
      rep.analyzers.length = analyzers.length ∧
      rep.analyzers.get? i = some ⟨nm, [], [], [], some e⟩ ∧
      rep.summary.passed = ((rep.analyzers.filter (fun r => r.error = none)).map
        (fun r => r.passed.length)).sum ∧
      rep.summary.failed = ((rep.analyzers.filter (fun r => r.error = none)).map
        (fun r => r.failed.length)).sum ∧
      rep.summary.warnings = ((rep.analyzers.filter (fun r => r.error = none)).map
        (fun r => r.warnings.length)).sum := by
  have hmem : ∀ r ∈ analyzers.map resultOf, r.error ≠ none →
      r.passed = [] ∧ r.failed = [] ∧ r.warnings = [] := by
    intro r hr
    rcases List.mem_map.mp hr with ⟨a, _, rfl⟩
    exact resultOf_error_empty a
  refine ⟨⟨pp, pt, ⟨analyzers.length,
      (analyzers.map (fun a => (resultOf a).passed.length)).sum,
      (analyzers.map (fun a => (resultOf a).failed.length)).sum,
      (analyzers.map (fun a => (resultOf a).warnings.length)).sum⟩,
      analyzers.map resultOf⟩, ?_, ?_, ?_, ?_, ?_, ?_⟩
  · simp [analyzeProject, foldl_analyzerStep]
  · simp
  · simp [List.getElem?_map, List.get?_eq_getElem?, hi, resultOf] at hi ⊢
    simp [hi, resultOf]
  · simpa [List.map_map, Function.comp] using
      (sum_filter_noError (fun r => r.passed) (analyzers.map resultOf)
        (fun r hr he => (hmem r hr he).1))
  · simpa [List.map_map, Function.comp] using
      (sum_filter_noError (fun r => r.failed) (analyzers.map resultOf)
        (fun r hr he => (hmem r hr he).2.1))
  · simpa [List.map_map, Function.comp] using
      (sum_filter_noError (fun r => r.warnings) (analyzers.map resultOf)
        (fun r hr he => (hmem r hr he).2.2))

/-- A concrete two-analyzer run in which the first analyzer throws and the
second completes with one passed and one failed finding. -/
def c3SampleRuns : List AnalyzerRun :=
  [⟨"Gitignore Analyzer", .error "boom"⟩,
   ⟨"Environment Files Analyzer",
    .ok ⟨"Environment Files Analyzer", [⟨"r1", "m1", none⟩],
      [⟨"r2", "m2", none⟩], []⟩⟩]

/-- Witness for C3: the sample run's first analyzer throws, and the report
keeps both entries, records the error with empty lists, and counts only the
error-free entry. -/
theorem analyzeProject_isolates_failure_witness :
    c3SampleRuns.get? 0 = some ⟨"Gitignore Analyzer", .error "boom"⟩ ∧
    (∃ rep, analyzeProject true "proj" "nodejs" c3SampleRuns = .ok rep ∧
      rep.analyzers.length = c3SampleRuns.length ∧
      rep.analyzers.get? 0 =
        some ⟨"Gitignore Analyzer", [], [], [], some "boom"⟩ ∧
      rep.summary.passed = ((rep.analyzers.filter (fun r => r.error = none)).map
        (fun r => r.passed.length)).sum ∧
      rep.summary.failed = ((rep.analyzers.filter (fun r => r.error = none)).map
        (fun r => r.failed.length)).sum ∧
      rep.summary.warnings = ((rep.analyzers.filter (fun r => r.error = none)).map
        (fun r => r.warnings.length)).sum) :=
  ⟨by decide,
   analyzeProject_isolates_failure "proj" "nodejs" c3SampleRuns 0
     "Gitignore Analyzer" "boom" (by decide)⟩

/-- C8: a delivery that passes the signature gate, declares the
`pull_request` event, but carries an action outside
`{opened, synchronize, reopened}`, is acknowledged with a 200 success
response and performs no side effects — no analysis, no comment write. -/
theorem webhook_irrelevant_action_noop (secret : List Nat)
    (sigHeader : Option (List Nat)) (rawBody : List Nat)
    (parse : List Nat → Option Payload)
    (analyzePR : String → String → Nat → Except String (List Effect))
    (commentFn : String → String → Nat → String → Except String Unit)
    (payload : Payload)
    (hparse : parse rawBody = some payload)
    (haction : relevantActions.contains payload.action = false)
    (hgate : sigHeader = none ∨ ∃ s, sigHeader = some s ∧
      verifyWebhookSignature secret rawBody s = .ok true) :
    handleWebhook secret sigHeader rawBody "pull_request" parse analyzePR
      commentFn = (200, []) := by
  have haction2 : payload.action ∉ relevantActions := by simpa using haction
  have hbody : processWebhookBody rawBody "pull_request" parse analyzePR
      commentFn = .ok (200, []) := by
    simp [processWebhookBody, hparse, handlePullRequestEvent, haction2]
  rcases hgate with rfl | ⟨s, rfl, hv⟩
  · simp [handleWebhook, hbody]
  · by_cases hsec : secret = []
    · simp [handleWebhook, hsec, hbody]
    · by_cases hs : s = [] <;> simp [handleWebhook, hsec, hs, hv, hbody]

/-- Witness for C8 at a concrete delivery with action `closed` and no
signature header. -/
theorem webhook_irrelevant_action_noop_witness :
    (fun (_ : List Nat) => some (⟨"closed", 5, "octo", "repo", "octo/repo"⟩ : Payload)) [1, 2] =
      some (⟨"closed", 5, "octo", "repo", "octo/repo"⟩ : Payload) ∧
    relevantActions.contains "closed" = false ∧
    handleWebhook (asciiBytes "s") none [1, 2] "pull_request"
      (fun _ => some ⟨"closed", 5, "octo", "repo", "octo/repo"⟩)
      (fun o r n => .ok [Effect.analyzed o r n])
      (fun _ _ _ _ => .ok ()) = (200, []) :=
  ⟨rfl, by decide,
   webhook_irrelevant_action_noop (asciiBytes "s") none [1, 2]
     (fun _ => some ⟨"closed", 5, "octo", "repo", "octo/repo"⟩)
     (fun o r n => .ok [Effect.analyzed o r n])
     (fun _ _ _ _ => .ok ())
     ⟨"closed", 5, "octo", "repo", "octo/repo"⟩
     rfl (by decide) (Or.inl rfl)⟩

/-- C1 counterexample: with a configured (nonempty) secret and the
signature header absent, the delivery is not rejected — the handler skips
verification, answers 200 and runs the full pull-request pipeline, contrary
to the claim that a missing signature is rejected with an unauthorized
response before any processing. -/
theorem webhook_missing_header_processed :
    asciiBytes "s" ≠ [] ∧
    handleWebhook (asciiBytes "s") none [104, 105] "pull_request"
      (fun _ => some ⟨"opened", 7, "octo", "repo", "octo/repo"⟩)
      (fun o r n => .ok [Effect.analyzed o r n])
      (fun _ _ _ _ => .ok ()) = (200, [Effect.analyzed "octo" "repo" 7]) := by
  constructor
  · decide
  · rfl

/-- `beBytes` renders exactly `n` bytes. -/
theorem beBytes_length (n v : Nat) : (beBytes n v).length = n := by
  simp [beBytes]

/-- A serialized SHA-256 state is 32 bytes. -/
theorem digestBytes_length (st : ShaState) : (digestBytes st).length = 32 := by
  simp [digestBytes, beBytes_length]

/-- SHA-256 digests are 32 bytes. -/
theorem sha256Bytes_length (m : List Nat) : (sha256Bytes m).length = 32 := by
  simp [sha256Bytes, digestBytes_length]

/-- HMAC-SHA256 digests are 32 bytes. -/
theorem hmacSha256_length (k m : List Nat) : (hmacSha256 k m).length = 32 := by
  simp [hmacSha256, sha256Bytes_length]

/-- Hex rendering doubles the byte count. -/
theorem hexOfBytes_length (l : List Nat) :
    (hexOfBytes l).length = 2 * l.length := by
  induction l with
  | nil => rfl
  | cons b bs ih => simp [hexOfBytes, ih]; ring

/-- The expected `sha256=<hex>` header value is 71 bytes: the 7-byte scheme
tag plus 64 hex digits. -/
theorem expectedSigBytes_length (secret payload : List Nat) :
    (expectedSigBytes secret payload).length = 71 := by
  simp [expectedSigBytes, asciiBytes, hexOfBytes_length, hmacSha256_length]

/-- The expected header value begins with the ASCII byte of `s`; any byte
list with a different first byte therefore differs from it. -/
theorem ne_expectedSig_of_head (secret payload s : List Nat)
    (h : s.headD 0 ≠ 115) : s ≠ expectedSigBytes secret payload := by
  intro he
  apply h
  rw [he]
  rfl

/-- C1 (amended): with a configured secret, a present NONEMPTY signature
header that fails the HMAC comparison is rejected before any processing
with no side effects — 401 when the header has the expected 71-byte
length, 500 (the comparison throws into the outer catch) when its nonzero
length differs; when the header is absent or empty (falsy in the source's
truthiness gate), verification is skipped entirely and handling proceeds
exactly as with no secret; and the constructor's hardcoded default keeps
the secret nonempty whatever the environment provides. -/
theorem webhook_signature_gate (secret rawBody : List Nat) (event : String)
    (parse : List Nat → Option Payload)
    (analyzePR : String → String → Nat → Except String (List Effect))
    (commentFn : String → String → Nat → String → Except String Unit)
    (hsec : secret ≠ []) :
    (∀ s, s.length = 71 → s ≠ expectedSigBytes secret rawBody →
      handleWebhook secret (some s) rawBody event parse analyzePR commentFn =
        (401, [])) ∧
    (∀ s, s ≠ [] → s.length ≠ 71 →
      handleWebhook secret (some s) rawBody event parse analyzePR commentFn =
        (500, [])) ∧
    handleWebhook secret (some []) rawBody event parse analyzePR commentFn =
      handleWebhook [] none rawBody event parse analyzePR commentFn ∧
    handleWebhook secret none rawBody event parse analyzePR commentFn =
      handleWebhook [] none rawBody event parse analyzePR commentFn ∧
    (∀ envSecret, configuredSecret envSecret ≠ []) := by
  refine ⟨?_, ?_, ?_, rfl, ?_⟩
  · intro s hlen hne
    have hs : s ≠ [] := by
      intro h
      rw [h] at hlen
      simp at hlen
    have hv : verifyWebhookSignature secret rawBody s = .ok false := by
      simp [verifyWebhookSignature, timingSafeEqual, hlen,
        expectedSigBytes_length, hne]
    simp [handleWebhook, hsec, hs, hv]
  · intro s hs hlen
    have hv : verifyWebhookSignature secret rawBody s =
        .error "Input buffers must have the same byte length" := by
      simp [verifyWebhookSignature, timingSafeEqual,
        expectedSigBytes_length, hlen]
    simp [handleWebhook, hsec, hs, hv]
  · have hgate : ¬(secret ≠ [] ∧ ([] : List Nat) ≠ []) := fun h => h.2 rfl
    simp [handleWebhook, hgate]
  · intro envSecret
    cases envSecret with
    | none => simp [configuredSecret, defaultSecretBytes, asciiBytes]
    | some s =>
        by_cases h : s = [] <;>
          simp [configuredSecret, h, defaultSecretBytes, asciiBytes]

/-- Witness for C1 (amended) at a concrete secret and body: a wrong
71-byte header answers 401, a nonempty 3-byte header answers 500, and both
the empty-header and missing-header handling match the no-secret
handling. -/
theorem webhook_signature_gate_witness :
    asciiBytes "s" ≠ [] ∧
    (List.replicate 71 120).length = 71 ∧
    List.replicate 71 120 ≠ expectedSigBytes (asciiBytes "s") [98] ∧
    handleWebhook (asciiBytes "s") (some (List.replicate 71 120)) [98]
      "pull_request" (fun _ => none) (fun _ _ _ => .ok [])
      (fun _ _ _ _ => .ok ()) = (401, []) ∧
    ([1, 2, 3] : List Nat) ≠ [] ∧
    ([1, 2, 3] : List Nat).length ≠ 71 ∧
    handleWebhook (asciiBytes "s") (some [1, 2, 3]) [98]
      "pull_request" (fun _ => none) (fun _ _ _ => .ok [])
      (fun _ _ _ _ => .ok ()) = (500, []) ∧
    handleWebhook (asciiBytes "s") (some []) [98] "pull_request"
      (fun _ => none) (fun _ _ _ => .ok []) (fun _ _ _ _ => .ok ()) =
      handleWebhook [] none [98] "pull_request" (fun _ => none)
        (fun _ _ _ => .ok []) (fun _ _ _ _ => .ok ()) ∧
    handleWebhook (asciiBytes "s") none [98] "pull_request" (fun _ => none)
      (fun _ _ _ => .ok []) (fun _ _ _ _ => .ok ()) =
      handleWebhook [] none [98] "pull_request" (fun _ => none)
        (fun _ _ _ => .ok []) (fun _ _ _ _ => .ok ()) :=
  ⟨by decide, by decide,
   ne_expectedSig_of_head (asciiBytes "s") [98] (List.replicate 71 120)
     (by decide),
   (webhook_signature_gate (asciiBytes "s") [98] "pull_request"
     (fun _ => none) (fun _ _ _ => .ok []) (fun _ _ _ _ => .ok ())
     (by decide)).1 (List.replicate 71 120) (by decide)
     (ne_expectedSig_of_head (asciiBytes "s") [98] (List.replicate 71 120)
       (by decide)),
   by decide, by decide,
   (webhook_signature_gate (asciiBytes "s") [98] "pull_request"
     (fun _ => none) (fun _ _ _ => .ok []) (fun _ _ _ _ => .ok ())
     (by decide)).2.1 [1, 2, 3] (by decide) (by decide),
   (webhook_signature_gate (asciiBytes "s") [98] "pull_request"
     (fun _ => none) (fun _ _ _ => .ok []) (fun _ _ _ _ => .ok ())
     (by decide)).2.2.1,
   (webhook_signature_gate (asciiBytes "s") [98] "pull_request"
     (fun _ => none) (fun _ _ _ => .ok []) (fun _ _ _ _ => .ok ())
     (by decide)).2.2.2.1⟩

/-- C2 counterexample: on a PR whose only comment contains the bot marker
in the middle of its body (so it does not start with the marker), the code
updates that comment in place, while the spec's starts-with search would
create a second comment — the search is containment, not a prefix test. -/
theorem commentOnPR_not_prefix_search :
    commentOnPR [⟨0, "note 🤖 **Code Structure Review** old"⟩] 1 "m" =
      [⟨0, "m"⟩] ∧
    commentOnPRStartsWith [⟨0, "note 🤖 **Code Structure Review** old"⟩] 1 "m" =
      [⟨0, "note 🤖 **Code Structure Review** old"⟩, ⟨1, "m"⟩] ∧
    commentOnPR [⟨0, "note 🤖 **Code Structure Review** old"⟩] 1 "m" ≠
      commentOnPRStartsWith [⟨0, "note 🤖 **Code Structure Review** old"⟩] 1 "m" := by
  refine ⟨by decide, by decide, by decide⟩

/-- C2 (amended): the upsert lists the PR's comments and searches for one
whose body contains the fixed bot marker; when one exists the update
preserves every comment identity (no new comment), and starting from a PR
with no bot comment, posting a marker-carrying body twice in sequence
creates on the first call, updates in place on the second, and leaves
exactly one bot comment. -/
theorem commentOnPR_upsert_idempotent :
    (∀ (cs : List Comment) (fid : Nat) (m : String) (bot : Comment),
      cs.find? isBotComment = some bot →
      (commentOnPR cs fid m).map (fun c => c.id) = cs.map (fun c => c.id)) ∧
    (∀ (comments : List Comment) (id1 id2 : Nat) (msg : String),
      (∀ c ∈ comments, isBotComment c = false) →
      (∀ c ∈ comments, c.id ≠ id1) →
      containsSub msg.data botMarker.data = true →
      commentOnPR comments id1 msg = comments ++ [⟨id1, msg⟩] ∧
      commentOnPR (commentOnPR comments id1 msg) id2 msg =
        comments ++ [⟨id1, msg⟩] ∧
      botCount (commentOnPR (commentOnPR comments id1 msg) id2 msg) = 1) := by
  constructor
  · intro cs fid m bot hfind
    simp only [commentOnPR, hfind, List.map_map]
    apply List.map_congr_left
    intro c _
    by_cases h : c.id = bot.id <;> simp [h]
  · intro comments id1 id2 msg hclean hids hmsg
    have hnone : comments.find? isBotComment = none := by
      rw [List.find?_eq_none]
      intro c hc
      simp [hclean c hc]
    have h1 : commentOnPR comments id1 msg = comments ++ [⟨id1, msg⟩] := by
      simp [commentOnPR, hnone]
    have hbotnew : isBotComment ⟨id1, msg⟩ = true := by
      simpa [isBotComment] using hmsg
    have hfind2 : List.find? isBotComment (comments ++ [(⟨id1, msg⟩ : Comment)]) =
        some ⟨id1, msg⟩ := by
      rw [List.find?_append, hnone]
      simp [List.find?_cons, hbotnew]
    have hmap : ∀ c ∈ comments,
        (if c.id = id1 then (⟨c.id, msg⟩ : Comment) else c) = c := by
      intro c hc
      simp [hids c hc]
    have h2 : commentOnPR (comments ++ [(⟨id1, msg⟩ : Comment)]) id2 msg =
        comments ++ [(⟨id1, msg⟩ : Comment)] := by
      simp only [commentOnPR, hfind2]
      dsimp only
      rw [List.map_append, List.map_congr_left hmap]
      simp
    refine ⟨h1, by rw [h1, h2], ?_⟩
    rw [h1, h2, botCount, List.countP_append]
    have hz : comments.countP (fun c => isBotComment c) = 0 := by
      rw [List.countP_eq_zero]
      intro c hc
      simp [hclean c hc]
    simp [hz, hbotnew]

/-- Witness for C2 (amended): identity preservation on a PR already holding
a bot comment, and two-call convergence on a PR starting without one. -/
theorem commentOnPR_upsert_idempotent_witness :
    ([⟨3, "🤖 **Code Structure Review** v1"⟩] : List Comment).find?
        isBotComment = some ⟨3, "🤖 **Code Structure Review** v1"⟩ ∧
    (commentOnPR [⟨3, "🤖 **Code Structure Review** v1"⟩] 7 "new").map
        (fun c => c.id) =
      ([⟨3, "🤖 **Code Structure Review** v1"⟩] : List Comment).map
        (fun c => c.id) ∧
    ([⟨5, "hello"⟩] : List Comment).all (fun c => !isBotComment c) = true ∧
    ([⟨5, "hello"⟩] : List Comment).all (fun c => c.id != 9) = true ∧
    containsSub ("🤖 **Code Structure Review**\nAll good").data
      botMarker.data = true ∧
    (commentOnPR [⟨5, "hello"⟩] 9 "🤖 **Code Structure Review**\nAll good" =
      [⟨5, "hello"⟩, ⟨9, "🤖 **Code Structure Review**\nAll good"⟩] ∧
     commentOnPR (commentOnPR [⟨5, "hello"⟩] 9
         "🤖 **Code Structure Review**\nAll good") 12
         "🤖 **Code Structure Review**\nAll good" =
       [⟨5, "hello"⟩, ⟨9, "🤖 **Code Structure Review**\nAll good"⟩] ∧
     botCount (commentOnPR (commentOnPR [⟨5, "hello"⟩] 9
         "🤖 **Code Structure Review**\nAll good") 12
         "🤖 **Code Structure Review**\nAll good") = 1) :=
  ⟨by decide,
   commentOnPR_upsert_idempotent.1 [⟨3, "🤖 **Code Structure Review** v1"⟩]
     7 "new" ⟨3, "🤖 **Code Structure Review** v1"⟩ (by decide),
   by decide, by decide, by decide,
   commentOnPR_upsert_idempotent.2 [⟨5, "hello"⟩] 9 12
     "🤖 **Code Structure Review**\nAll good"
     (by decide) (by decide) (by decide)⟩

/-- C6 counterexample: on a root containing exactly the file `.env`, with
no configured prohibited-files list (so the analyzer's built-in default —
which lists `.env` — applies), the env analyzer reports the duplicate pair
of failed findings for `.env`, not exactly one: the file matches both the
prohibited-list check and the `.env`-prefix check. The passed list is empty,
so in particular no `no-env-files-committed` pass is reported. -/
theorem envAnalyze_duplicate_finding :
    (envAnalyze (.ok [".env"]) [] false).failed =
      [envFailedFinding ".env", envFailedFinding ".env"] ∧
    (envAnalyze (.ok [".env"]) [] false).failed.length ≠ 1 ∧
    (envAnalyze (.ok [".env"]) [] false).passed = [] := by
  refine ⟨by decide, by decide, by decide⟩

/-- Distinct file names yield distinct env failure findings (the file name
is embedded in the message). -/
theorem envFailedFinding_injective : Function.Injective envFailedFinding := by
  intro a b h
  have hm := congrArg (fun f => f.message) h
  simp only [envFailedFinding] at hm
  have h2 := congrArg String.data hm
  simp [String.data_append] at h2
  exact String.ext h2

/-- Under the default prohibited list, each directory entry named `.env`
is collected twice by `findEnvFiles` and no other entry is collected as
`.env`. -/
theorem findEnvFiles_count_dotenv (files : List String) :
    (findEnvFiles (.ok files) defaultEnvFiles).count ".env" =
      2 * files.count ".env" := by
  induction files with
  | nil => rfl
  | cons f t ih =>
      simp only [findEnvFiles, List.flatMap_cons] at ih ⊢
      rw [List.count_append]
      by_cases hf : f = ".env"
      · subst hf
        have c1 : ".env" ∈ defaultEnvFiles := by decide
        have c2 : leadsWith ['.', 'e', 'n', 'v'] ['.', 'e', 'n', 'v'] = true := by
          decide
        rw [ih]
        simp [c1, c2, List.count_cons]
        ring
      · rw [ih]
        have hz : (((if defaultEnvFiles.contains f then [f] else []) ++
            (if leadsWith ".env".data f.data && f ≠ ".env.example"
             then [f] else [])).count ".env") = 0 := by
          rcases hc : defaultEnvFiles.contains f with _ | _ <;>
            rcases hl : (leadsWith ".env".data f.data && f ≠ ".env.example") with _ | _ <;>
              simp [List.count_cons, hf]
        rw [hz]
        simp [List.count_cons, hf]

/-- C6 (amended): when the project root contains a file literally named
`.env` (listed once, as a directory listing lists it) and the effective
prohibited-files list is the analyzer's default (no configured
`general.prohibitedFiles`), the env analyzer reports the `.env` failure
twice — a duplicated finding, because `.env` matches both the
prohibited-list branch and the `.env`-prefix branch — and reports no
passed finding for the `no-env-files-committed` rule. -/
theorem envAnalyze_dotenv_duplicated (files : List String) (rules : RuleObj)
    (envExampleOnDisk : Bool)
    (hdefault : (assocLookup rules "general").bind
      (fun ns => ns.prohibitedFiles) = none)
    (hcount : files.count ".env" = 1) :
    (envAnalyze (.ok files) rules envExampleOnDisk).failed.count
        (envFailedFinding ".env") = 2 ∧
    (envAnalyze (.ok files) rules envExampleOnDisk).passed.all
        (fun f => f.rule != "no-env-files-committed") = true := by
  have hfound : (findEnvFiles (.ok files) defaultEnvFiles).count ".env" = 2 := by
    rw [findEnvFiles_count_dotenv, hcount]
  have hne : (findEnvFiles (.ok files) defaultEnvFiles).length ≠ 0 := by
    intro h0
    rw [List.length_eq_zero] at h0
    rw [h0] at hfound
    simp at hfound
  constructor
  · cases envExampleOnDisk <;>
      (simp [envAnalyze, hdefault, hne]
       rw [List.count_map_of_injective _ _ envFailedFinding_injective]
       exact hfound)
  · cases envExampleOnDisk <;>
      simp [envAnalyze, hdefault, hne, List.all_append]

/-- Witness for C6 (amended) at the concrete root `[".env", "app.js"]` with
an empty rule object. -/
theorem envAnalyze_dotenv_duplicated_witness :
    (assocLookup [] "general").bind (fun ns => ns.prohibitedFiles) = none ∧
    ([".env", "app.js"] : List String).count ".env" = 1 ∧
    ((envAnalyze (.ok [".env", "app.js"]) [] false).failed.count
        (envFailedFinding ".env") = 2 ∧
      (envAnalyze (.ok [".env", "app.js"]) [] false).passed.all
        (fun f => f.rule != "no-env-files-committed") = true) :=
  ⟨by decide, by decide,
   envAnalyze_dotenv_duplicated [".env", "app.js"] [] false
     (by decide) (by decide)⟩

/-- Every list is a prefix of itself. -/
theorem leadsWith_refl (l : List Char) : leadsWith l l = true := by
  induction l with
  | nil => rfl
  | cons a as ih => simp [leadsWith, ih]

/-- A prefix's characters all occur in the longer list. -/
theorem mem_of_leadsWith (needle : List Char) :
    ∀ (hay : List Char), leadsWith needle hay = true →
      ∀ c ∈ needle, c ∈ hay := by
  induction needle with
  | nil => intro hay _ c hc; cases hc
  | cons a as ih =>
      intro hay h c hc
      cases hay with
      | nil => simp [leadsWith] at h
      | cons b bs =>
          simp only [leadsWith, Bool.and_eq_true, beq_iff_eq] at h
          rcases List.mem_cons.mp hc with rfl | hcs
          · rw [h.1]; exact List.mem_cons_self b bs
          · exact List.mem_cons_of_mem b (ih bs h.2 c hcs)

/-- A contained substring's characters all occur in the containing list. -/
theorem mem_of_containsSub (needle : List Char) :
    ∀ (hay : List Char), containsSub hay needle = true →
      ∀ c ∈ needle, c ∈ hay := by
  intro hay
  induction hay with
  | nil =>
      intro h c hc
      rw [containsSub] at h
      simp only [Bool.or_false] at h
      cases needle with
      | nil => cases hc
      | cons a as => simp [leadsWith] at h
  | cons x t ih =>
      intro h c hc
      rw [containsSub] at h
      rcases Bool.or_eq_true _ _ |>.mp h with hl | hr
      · exact mem_of_leadsWith needle (x :: t) hl c hc
      · exact List.mem_cons_of_mem x (ih hr c hc)

/-- Containment is preserved by extending the haystack on the left. -/
theorem containsSub_append_left (a b needle : List Char)
    (h : containsSub b needle = true) : containsSub (a ++ b) needle = true := by
  induction a with
  | nil => simpa using h
  | cons x t ih =>
      rw [List.cons_append, containsSub]
      simp [ih]

/-- The string contains no book-emoji character (the character that marks
the general-recommendations header and nothing else in a report). -/
def noBook (s : String) : Prop := '📚' ∉ s.data

instance (s : String) : Decidable (noBook s) := by
  unfold noBook
  infer_instance

/-- Concatenation preserves book-emoji freedom. -/
theorem noBook_append {a b : String} (ha : noBook a) (hb : noBook b) :
    noBook (a ++ b) := by
  simp only [noBook, String.data_append, List.mem_append] at ha hb ⊢
  intro h
  rcases h with h | h
  · exact ha h
  · exact hb h

/-- Decimal digit runs contain only digit characters. -/
theorem natReprAux_digits (fuel : Nat) :
    ∀ (n : Nat), ∀ c ∈ natReprAux fuel n, ∃ d : Fin 10, c = digitChar d.val := by
  induction fuel with
  | zero => intro n c hc; cases hc
  | succ fuel ih =>
      intro n c hc
      rw [natReprAux] at hc
      by_cases hn : n < 10
      · rw [if_pos hn] at hc
        rcases List.mem_singleton.mp hc with rfl
        exact ⟨⟨n, hn⟩, rfl⟩
      · rw [if_neg hn] at hc
        rcases List.mem_append.mp hc with h | h
        · exact ih (n / 10) c h
        · rcases List.mem_singleton.mp h with rfl
          exact ⟨⟨n % 10, Nat.mod_lt n (by omega)⟩, rfl⟩

/-- Rendered counts contain no book emoji. -/
theorem noBook_natRepr (n : Nat) : noBook (natRepr n) := by
  intro hc
  rcases natReprAux_digits (n + 1) n '📚' hc with ⟨d, hd⟩
  revert hd
  revert d
  decide

/-- Every character of every slash-split segment comes from the input. -/
theorem splitSlash_subset (cs : List Char) :
    ∀ l ∈ splitSlash cs, ∀ c ∈ l, c ∈ cs := by
  induction cs with
  | nil =>
      intro l hl c hc
      rcases List.mem_singleton.mp hl with rfl
      cases hc
  | cons x t ih =>
      intro l hl c hc
      rw [splitSlash] at hl
      by_cases hx : x = '/'
      · rw [if_pos hx] at hl
        rcases List.mem_cons.mp hl with rfl | hl2
        · cases hc
        · exact List.mem_cons_of_mem x (ih l hl2 c hc)
      · rw [if_neg hx] at hl
        rcases hsplit : splitSlash t with _ | ⟨s, ss⟩
        · rw [hsplit] at hl
          rcases List.mem_singleton.mp hl with rfl
          rcases List.mem_singleton.mp hc with rfl
          exact List.mem_cons_self c t
        · rw [hsplit] at hl
          rcases List.mem_cons.mp hl with rfl | hl2
          · rcases List.mem_cons.mp hc with rfl | hc2
            · exact List.mem_cons_self c t
            · refine List.mem_cons_of_mem x (ih s ?_ c hc2)
              rw [hsplit]
              exact List.mem_cons_self s ss
          · refine List.mem_cons_of_mem x (ih l ?_ c hc)
            rw [hsplit]
            exact List.mem_cons_of_mem s hl2

/-- The basename draws its characters from the path. -/
theorem noBook_basename {p : String} (hp : noBook p) : noBook (basename p) := by
  unfold basename
  cases hlast : ((splitSlash p.data).filter (fun s => s ≠ [])).getLast? with
  | none =>
      simp only [hlast]
      intro hc
      cases hc
  | some l =>
      simp only [hlast]
      intro hc
      have hmem := List.mem_of_mem_getLast? hlast
      have hl : l ∈ splitSlash p.data := (List.mem_filter.mp hmem).1
      exact hp (splitSlash_subset p.data l hl '📚' hc)

/-- A newline join of book-free lines is book-free. -/
theorem noBook_joinNL (l : List String) (h : ∀ s ∈ l, noBook s) :
    noBook (joinNL l) := by
  cases l with
  | nil => intro hc; cases hc
  | cons x xs =>
      rw [joinNL]
      have hx : noBook x := h x (List.mem_cons_self x xs)
      have hxs : ∀ s ∈ xs, noBook s :=
        fun s hs => h s (List.mem_cons_of_mem x hs)
      clear h
      induction xs generalizing x with
      | nil => exact hx
      | cons y ys ih =>
          rw [List.foldl_cons]
          refine ih (x ++ "\n" ++ y) ?_ ?_
          · refine noBook_append (noBook_append hx ?_) ?_
            · decide
            · exact hxs y (List.mem_cons_self y ys)
          · exact fun s hs => hxs s (List.mem_cons_of_mem y hs)

/-- An analyzer entry whose text fields are free of the book emoji that
marks the general-recommendations header (true of every finding the
analyzers of this repository produce). -/
def cleanResult (a : AnalysisResult) : Prop :=
  noBook a.analyzer ∧ noBook (a.error.getD "") ∧
  (∀ f ∈ a.failed, noBook f.message ∧ noBook (f.suggestion.getD "")) ∧
  (∀ f ∈ a.warnings, noBook f.message ∧ noBook (f.suggestion.getD "")) ∧
  (∀ f ∈ a.passed, noBook f.message)

instance (a : AnalysisResult) : Decidable (cleanResult a) := by
  unfold cleanResult
  infer_instance

/-- A report whose path, type and analyzer entries are free of the book
emoji. -/
def cleanReport (r : Report) : Prop :=
  noBook r.projectPath ∧ noBook r.projectType ∧ ∀ a ∈ r.analyzers, cleanResult a

instance (r : Report) : Decidable (cleanReport r) := by
  unfold cleanReport
  infer_instance

/-- Issue lines of a clean report are book-free. -/
theorem noBook_criticalLines (rs : List AnalysisResult)
    (h : ∀ a ∈ rs, cleanResult a) : ∀ s ∈ criticalLines rs, noBook s := by
  intro s hs
  rw [criticalLines] at hs
  rcases List.mem_flatMap.mp hs with ⟨a, ha, hsa⟩
  have hca := h a ha
  by_cases he : errTruthy a = true
  · rw [if_pos he] at hsa
    rcases List.mem_singleton.mp hsa with rfl
    exact noBook_append (noBook_append (noBook_append (by decide) hca.1)
      (by decide)) hca.2.1
  · rw [if_neg he] at hsa
    rcases List.mem_flatMap.mp hsa with ⟨f, hf, hsf⟩
    have hcf := hca.2.2.1 f hf
    rcases List.mem_append.mp hsf with h1 | h2
    · rcases List.mem_singleton.mp h1 with rfl
      exact noBook_append (noBook_append (by decide) hcf.1) (by decide)
    · cases hsug : f.suggestion with
      | none => rw [hsug] at h2; cases h2
      | some sug =>
          rw [hsug] at h2
          rcases List.mem_singleton.mp h2 with rfl
          have : noBook sug := by
            have := hcf.2
            rw [hsug] at this
            exact this
          exact noBook_append (noBook_append (by decide) this) (by decide)

/-- Warning lines of a clean report are book-free. -/
theorem noBook_warningLines (rs : List AnalysisResult)
    (h : ∀ a ∈ rs, cleanResult a) : ∀ s ∈ warningLines rs, noBook s := by
  intro s hs
  rw [warningLines] at hs
  rcases List.mem_flatMap.mp hs with ⟨a, ha, hsa⟩
  have hca := h a ha
  by_cases he : errTruthy a = true
  · rw [if_pos he] at hsa; cases hsa
  · rw [if_neg he] at hsa
    rcases List.mem_flatMap.mp hsa with ⟨f, hf, hsf⟩
    have hcf := hca.2.2.2.1 f hf
    rcases List.mem_append.mp hsf with h1 | h2
    · rcases List.mem_singleton.mp h1 with rfl
      exact noBook_append (noBook_append (by decide) hcf.1) (by decide)
    · cases hsug : f.suggestion with
      | none => rw [hsug] at h2; cases h2
      | some sug =>
          rw [hsug] at h2
          rcases List.mem_singleton.mp h2 with rfl
          have hnb : noBook sug := by
            have := hcf.2
            rw [hsug] at this
            exact this
          exact noBook_append (noBook_append (by decide) hnb) (by decide)

/-- Good-practice lines of a clean report are book-free. -/
theorem noBook_successLines (rs : List AnalysisResult)
    (h : ∀ a ∈ rs, cleanResult a) : ∀ s ∈ successLines rs, noBook s := by
  intro s hs
  rw [successLines] at hs
  rcases List.mem_flatMap.mp hs with ⟨a, ha, hsa⟩
  have hca := h a ha
  by_cases he : errTruthy a = true
  · rw [if_pos he] at hsa; cases hsa
  · rw [if_neg he] at hsa
    rcases List.mem_map.mp hsa with ⟨f, hf, rfl⟩
    exact noBook_append (by decide) (hca.2.2.2.2 f hf)

/-- The report text before the optional recommendations block: header and
the three conditional sections. -/
def baseReport (r : Report) : String :=
  let header :=
    "🤖 **Code Structure Review**\n\n" ++
    "📁 Project: " ++ basename r.projectPath ++ "\n" ++
    "🔧 Type: " ++ r.projectType ++ "\n" ++
    "📊 Summary: " ++ natRepr r.summary.passed ++ " passed, " ++
      natRepr r.summary.failed ++ " failed, " ++
      natRepr r.summary.warnings ++ " warnings\n\n"
  let ci := criticalLines r.analyzers
  let ws := warningLines r.analyzers
  let ss := successLines r.analyzers
  header ++
    (if ci ≠ [] then "## ❌ Issues Found\n" ++ joinNL ci ++ "\n\n" else "") ++
    (if ws ≠ [] then "## ⚠️  Warnings\n" ++ joinNL ws ++ "\n\n" else "") ++
    (if ss ≠ [] then "## ✅ Good Practices Found\n" ++ joinNL ss ++ "\n\n" else "")

/-- `generateReport` is the base text with the recommendations block
appended exactly under its nonempty-issues-or-warnings condition. -/
theorem generateReport_eq (r : Report) :
    generateReport r = baseReport r ++
      (if criticalLines r.analyzers ≠ [] ∨ warningLines r.analyzers ≠ []
       then recsBlock else "") := by
  by_cases h : criticalLines r.analyzers ≠ [] ∨ warningLines r.analyzers ≠ [] <;>
    simp [generateReport, baseReport, h, String.append_empty]

/-- The base report text of a clean report never contains the book emoji. -/
theorem noBook_baseReport (r : Report) (hc : cleanReport r) :
    noBook (baseReport r) := by
  have hsec : ∀ (cond : Prop) [Decidable cond] (lit tail : String)
      (lines : List String), noBook lit → noBook tail →
      (∀ s ∈ lines, noBook s) →
      noBook (if cond then lit ++ joinNL lines ++ tail else "") := by
    intro cond _ lit tail lines hlit htail hlines
    by_cases hcond : cond
    · rw [if_pos hcond]
      exact noBook_append (noBook_append hlit (noBook_joinNL lines hlines)) htail
    · rw [if_neg hcond]
      decide
  have hheader : noBook ("🤖 **Code Structure Review**\n\n" ++
      "📁 Project: " ++ basename r.projectPath ++ "\n" ++
      "🔧 Type: " ++ r.projectType ++ "\n" ++
      "📊 Summary: " ++ natRepr r.summary.passed ++ " passed, " ++
        natRepr r.summary.failed ++ " failed, " ++
        natRepr r.summary.warnings ++ " warnings\n\n") := by
    repeat' apply noBook_append
    all_goals first
      | exact noBook_basename hc.1
      | exact hc.2.1
      | exact noBook_natRepr _
      | decide
  have hbeq : baseReport r =
      ("🤖 **Code Structure Review**\n\n" ++
       "📁 Project: " ++ basename r.projectPath ++ "\n" ++
       "🔧 Type: " ++ r.projectType ++ "\n" ++
       "📊 Summary: " ++ natRepr r.summary.passed ++ " passed, " ++
         natRepr r.summary.failed ++ " failed, " ++
         natRepr r.summary.warnings ++ " warnings\n\n") ++
      (if criticalLines r.analyzers ≠ [] then
        "## ❌ Issues Found\n" ++ joinNL (criticalLines r.analyzers) ++ "\n\n"
       else "") ++
      (if warningLines r.analyzers ≠ [] then
        "## ⚠️  Warnings\n" ++ joinNL (warningLines r.analyzers) ++ "\n\n"
       else "") ++
      (if successLines r.analyzers ≠ [] then
        "## ✅ Good Practices Found\n" ++ joinNL (successLines r.analyzers) ++
          "\n\n"
       else "") := rfl
  rw [hbeq]
  refine noBook_append (noBook_append (noBook_append hheader ?_) ?_) ?_
  · exact hsec _ _ _ _ (by decide) (by decide)
      (noBook_criticalLines r.analyzers hc.2.2)
  · exact hsec _ _ _ _ (by decide) (by decide)
      (noBook_warningLines r.analyzers hc.2.2)
  · exact hsec _ _ _ _ (by decide) (by decide)
      (noBook_successLines r.analyzers hc.2.2)

/-- Every list contains itself as a substring. -/
theorem containsSub_refl (l : List Char) : containsSub l l = true := by
  cases l with
  | nil => rfl
  | cons x t => rw [containsSub]; simp [leadsWith_refl]

/-- The issue-line list is empty exactly when no analyzer entry has a
truthy error and none has a failed finding. -/
theorem criticalLines_eq_nil_iff (rs : List AnalysisResult) :
    criticalLines rs = [] ↔
      ∀ a ∈ rs, errTruthy a = false ∧ a.failed = [] := by
  rw [criticalLines, List.flatMap_eq_nil_iff]
  constructor
  · intro h a ha
    have hblock := h a ha
    by_cases he : errTruthy a = true
    · rw [if_pos he] at hblock
      simp at hblock
    · rw [if_neg he] at hblock
      refine ⟨by simpa using he, ?_⟩
      rw [List.flatMap_eq_nil_iff] at hblock
      rw [List.eq_nil_iff_forall_not_mem]
      intro f hf
      have hb := hblock f hf
      simp at hb
  · intro h a ha
    rw [if_neg (by simp [(h a ha).1]), (h a ha).2]
    rfl

/-- The warning-line list is empty exactly when every analyzer entry either
has a truthy error or has no warning findings. -/
theorem warningLines_eq_nil_iff (rs : List AnalysisResult) :
    warningLines rs = [] ↔
      ∀ a ∈ rs, errTruthy a = true ∨ a.warnings = [] := by
  rw [warningLines, List.flatMap_eq_nil_iff]
  constructor
  · intro h a ha
    by_cases he : errTruthy a = true
    · exact Or.inl he
    · right
      have hblock := h a ha
      rw [if_neg he] at hblock
      rw [List.flatMap_eq_nil_iff] at hblock
      rw [List.eq_nil_iff_forall_not_mem]
      intro f hf
      have hb := hblock f hf
      simp at hb
  · intro h a ha
    rcases h a ha with he | hw
    · rw [if_pos he]
    · by_cases he : errTruthy a = true
      · rw [if_pos he]
      · rw [if_neg he, hw]
        rfl

set_option maxRecDepth 100000 in
/-- C7 counterexample: a report whose single analyzer entry carries an
error and no findings has zero failed and zero warning findings, yet the
rendered text contains the general-recommendations section — the error
line alone triggers the closing block. -/
theorem generateReport_recs_despite_no_findings :
    (⟨"proj", "nodejs", ⟨3, 0, 0, 0⟩,
        [⟨"Gitignore Analyzer", [], [], [], some "boom"⟩]⟩ : Report).analyzers.all
        (fun a => a.failed.isEmpty && a.warnings.isEmpty) = true ∧
    containsSub (generateReport ⟨"proj", "nodejs", ⟨3, 0, 0, 0⟩,
        [⟨"Gitignore Analyzer", [], [], [], some "boom"⟩]⟩).data
      recsBlock.data = true := by
  refine ⟨by decide, by decide⟩

/-- C7 (amended): for a report whose text fields do not contain the book
emoji that marks the recommendations header (true of everything the
analyzers emit), the rendered text contains the closing
general-recommendations section exactly when some analyzer entry has a
truthy error or some error-free entry has a failed or warning finding; in
particular a report with no analyzer errors and zero failed and warning
findings has no such section. -/
theorem generateReport_recommendations_iff (r : Report) (hc : cleanReport r) :
    containsSub (generateReport r).data recsBlock.data =
      (r.analyzers.any (fun a => errTruthy a) ||
       r.analyzers.any (fun a => !errTruthy a &&
         (!a.failed.isEmpty || !a.warnings.isEmpty))) := by
  by_cases hcond : criticalLines r.analyzers = [] ∧ warningLines r.analyzers = []
  · have hnotor : ¬(criticalLines r.analyzers ≠ [] ∨
        warningLines r.analyzers ≠ []) := by
      push_neg
      exact hcond
    have hrep : generateReport r = baseReport r := by
      rw [generateReport_eq, if_neg hnotor, String.append_empty]
    have hnb := noBook_baseReport r hc
    have hfalse : containsSub (baseReport r).data recsBlock.data = false := by
      rcases hb : containsSub (baseReport r).data recsBlock.data with _ | _
      · rfl
      · exact absurd (mem_of_containsSub recsBlock.data (baseReport r).data hb
          '📚' (by decide)) hnb
    rw [hrep, hfalse]
    have h1 := (criticalLines_eq_nil_iff r.analyzers).mp hcond.1
    have h2 := (warningLines_eq_nil_iff r.analyzers).mp hcond.2
    have ha1 : r.analyzers.any (fun a => errTruthy a) = false := by
      rcases hb : r.analyzers.any (fun a => errTruthy a) with _ | _
      · rfl
      · rcases List.any_eq_true.mp hb with ⟨a, ha, hpa⟩
        rw [(h1 a ha).1] at hpa
        cases hpa
    have ha2 : r.analyzers.any (fun a => !errTruthy a &&
        (!a.failed.isEmpty || !a.warnings.isEmpty)) = false := by
      rcases hb : r.analyzers.any (fun a => !errTruthy a &&
          (!a.failed.isEmpty || !a.warnings.isEmpty)) with _ | _
      · rfl
      · rcases List.any_eq_true.mp hb with ⟨a, ha, hpa⟩
        rcases h2 a ha with he | hw
        · rw [he] at hpa
          simp at hpa
        · rw [(h1 a ha).2, hw] at hpa
          simp at hpa
    rw [ha1, ha2]
    rfl
  · have hcond2 : criticalLines r.analyzers ≠ [] ∨
        warningLines r.analyzers ≠ [] := by
      by_contra hno
      push_neg at hno
      exact hcond ⟨hno.1, hno.2⟩
    have hrep : generateReport r = baseReport r ++ recsBlock := by
      rw [generateReport_eq, if_pos hcond2]
    have hlhs : containsSub (generateReport r).data recsBlock.data = true := by
      rw [hrep, String.data_append]
      exact containsSub_append_left _ _ _ (containsSub_refl _)
    rw [hlhs]
    symm
    rw [Bool.or_eq_true]
    rcases hcond2 with h | h
    · have hnall : ¬∀ a ∈ r.analyzers, errTruthy a = false ∧ a.failed = [] :=
        fun hall => h ((criticalLines_eq_nil_iff _).mpr hall)
      push_neg at hnall
      rcases hnall with ⟨a, ha, hnot⟩
      rcases hb : errTruthy a with _ | _
      · right
        apply List.any_eq_true.mpr
        refine ⟨a, ha, ?_⟩
        have hf : a.failed ≠ [] := hnot hb
        cases hfc : a.failed with
        | nil => exact absurd hfc hf
        | cons f t => simp [hb, hfc]
      · left
        exact List.any_eq_true.mpr ⟨a, ha, by simp [hb]⟩
    · have hnall : ¬∀ a ∈ r.analyzers, errTruthy a = true ∨ a.warnings = [] :=
        fun hall => h ((warningLines_eq_nil_iff _).mpr hall)
      push_neg at hnall
      rcases hnall with ⟨a, ha, hnot⟩
      right
      apply List.any_eq_true.mpr
      refine ⟨a, ha, ?_⟩
      have he : errTruthy a = false := by
        rcases hb : errTruthy a with _ | _
        · rfl
        · exact absurd hb hnot.1
      cases hwc : a.warnings with
      | nil => exact absurd hwc hnot.2
      | cons f t => simp [he, hwc]

/-- Witness for C7 (amended) at a clean report with one failed finding and
no analyzer error: its text carries the recommendations section and the
condition evaluates true; and at a clean all-passed report: no section,
condition false. -/
theorem generateReport_recommendations_iff_witness :
    cleanReport ⟨"proj", "nodejs", ⟨3, 0, 1, 0⟩,
      [⟨"Gitignore Analyzer", [], [⟨"r", "bad", none⟩], [], none⟩]⟩ ∧
    containsSub (generateReport ⟨"proj", "nodejs", ⟨3, 0, 1, 0⟩,
        [⟨"Gitignore Analyzer", [], [⟨"r", "bad", none⟩], [], none⟩]⟩).data
        recsBlock.data =
      ((⟨"proj", "nodejs", ⟨3, 0, 1, 0⟩,
        [⟨"Gitignore Analyzer", [], [⟨"r", "bad", none⟩], [], none⟩]⟩ :
          Report).analyzers.any (fun a => errTruthy a) ||
       (⟨"proj", "nodejs", ⟨3, 0, 1, 0⟩,
        [⟨"Gitignore Analyzer", [], [⟨"r", "bad", none⟩], [], none⟩]⟩ :
          Report).analyzers.any (fun a => !errTruthy a &&
         (!a.failed.isEmpty || !a.warnings.isEmpty))) ∧
    cleanReport ⟨"proj", "nodejs", ⟨3, 1, 0, 0⟩,
      [⟨"Gitignore Analyzer", [⟨"r", "ok", none⟩], [], [], none⟩]⟩ ∧
    containsSub (generateReport ⟨"proj", "nodejs", ⟨3, 1, 0, 0⟩,
        [⟨"Gitignore Analyzer", [⟨"r", "ok", none⟩], [], [], none⟩]⟩).data
        recsBlock.data =
      ((⟨"proj", "nodejs", ⟨3, 1, 0, 0⟩,
        [⟨"Gitignore Analyzer", [⟨"r", "ok", none⟩], [], [], none⟩]⟩ :
          Report).analyzers.any (fun a => errTruthy a) ||
       (⟨"proj", "nodejs", ⟨3, 1, 0, 0⟩,
        [⟨"Gitignore Analyzer", [⟨"r", "ok", none⟩], [], [], none⟩]⟩ :
          Report).analyzers.any (fun a => !errTruthy a &&
         (!a.failed.isEmpty || !a.warnings.isEmpty))) :=
  ⟨by decide,
   generateReport_recommendations_iff
     ⟨"proj", "nodejs", ⟨3, 0, 1, 0⟩,
      [⟨"Gitignore Analyzer", [], [⟨"r", "bad", none⟩], [], none⟩]⟩
     (by decide),
   by decide,
   generateReport_recommendations_iff
     ⟨"proj", "nodejs", ⟨3, 1, 0, 0⟩,
      [⟨"Gitignore Analyzer", [⟨"r", "ok", none⟩], [], [], none⟩]⟩
     (by decide)⟩

/-- The correctly computed `sha256=<hmac-hex>` header is accepted: the
buffers have equal length and equal contents. (General development around
the signature check; the constant-time and byte-mutation aspects of the
spec's claim are extra-functional and cryptographic respectively, and are
not settled here.) -/
theorem verifyWebhookSignature_accepts (secret payload : List Nat) :
    verifyWebhookSignature secret payload (expectedSigBytes secret payload) =
      .ok true := by
  simp [verifyWebhookSignature, timingSafeEqual]

/-- Any header of the expected 71-byte length that differs anywhere from
the expected value — in particular any single-byte mutation of the hex
digest — is rejected with `false`. -/
theorem verifyWebhookSignature_rejects (secret payload sig : List Nat)
    (hlen : sig.length = 71) (hne : sig ≠ expectedSigBytes secret payload) :
    verifyWebhookSignature secret payload sig = .ok false := by
  simp [verifyWebhookSignature, timingSafeEqual, hlen,
    expectedSigBytes_length, hne]

/-- Witness for the signature-check lemmas at a concrete secret and body:
the genuine header is accepted and a wrong-first-byte header of the right
length is rejected. -/
theorem verifyWebhookSignature_rejects_witness :
    (List.replicate 71 120).length = 71 ∧
    List.replicate 71 120 ≠ expectedSigBytes (asciiBytes "k") [97] ∧
    verifyWebhookSignature (asciiBytes "k") [97] (List.replicate 71 120) =
      .ok false :=
  ⟨by decide,
   ne_expectedSig_of_head (asciiBytes "k") [97] (List.replicate 71 120)
     (by decide),
   verifyWebhookSignature_rejects (asciiBytes "k") [97]
     (List.replicate 71 120) (by decide)
     (ne_expectedSig_of_head (asciiBytes "k") [97] (List.replicate 71 120)
       (by decide))⟩

end PRReviewer
